import Mathlib

/-!
Verification development for the Coffee Catalog Service
(src/coffees/coffees.service.ts of the NestJs-Playground repository).

The service is embedded shallowly: the relational store is a record of entity
tables, the TypeORM repository operations the service invokes are modelled as
pure functions on that record, and each service method becomes a Lean function
that mirrors the TypeScript body statement by statement.  Two behaviours of the
runtime are modelled explicitly because the claims turn on them:

* `findOne` is not declared `async` and does not `await`
  `coffeeRepository.findOne`, so its local `coffee` holds the promise object
  itself.  A JavaScript object is always truthy, hence the `if (!coffee)`
  not-found branch is unreachable; callers that await the returned value
  observe the resolved row or `null`.  This is captured by `JSPromise`.

* the constructor parameter `flavourRepository` is declared with
  `@InjectRepository(Coffee)` (coffees.service.ts line 26), so the dependency
  injector hands it the Coffee repository, not the Flavour repository.  A
  find with a where clause on `name` therefore runs against the Coffee
  entity, which has no `name` column, and TypeORM raises
  EntityPropertyNotFoundError.  The where-clause validation of the repository
  layer is modelled in `coffeeRepoFindOne`.

The entity classes (coffee.entity.ts, flavour.entity.ts, event.entity.ts) and
the two query DTO files are referenced by the service but absent from the
source tree; their column lists, defaults and cascade behaviour are modelled
from the spec where so noted.
-/

namespace CoffeeCatalog

/-- Modelled from the spec: flavour.entity.ts is absent from the source tree.
Section 3 gives Flavour a surrogate integer id and a `name` string.  The
back-reference collection `coffees` is never read or written by the service
and is omitted.  By convention id 0 marks an unsaved (not yet persisted)
instance; the store assigns ids starting at 1. -/
structure Flavour where
  id : Nat
  name : String
deriving Repr, DecidableEq

/-- Modelled from the spec: coffee.entity.ts is absent from the source tree.
Section 3 gives Coffee a surrogate integer id, `title`, `brand`,
`description` (defaults to the empty string), `recommendations` (defaults to
0) and a many-to-many `flavours` relation.  The loaded association is kept
inline in the row; id 0 marks an unsaved instance. -/
structure Coffee where
  id : Nat
  title : String
  brand : String
  description : String
  recommendations : Nat
  flavours : List Flavour
deriving Repr, DecidableEq

/-- Modelled from the spec: event.entity.ts is absent from the source tree.
Section 3 gives Event an identity, a `name` tag, a `type` tag and an opaque
payload; the only payload the service ever writes is `{coffeeId}`, kept here
as the single field `payloadCoffeeId`. -/
structure Event where
  id : Nat
  name : String
  type : String
  payloadCoffeeId : Nat
deriving Repr, DecidableEq

/-- The relational store: one table per entity plus the id sequences. -/
structure Store where
  coffees : List Coffee
  flavours : List Flavour
  events : List Event
  nextCoffeeId : Nat
  nextFlavourId : Nat
  nextEventId : Nat
deriving Repr, DecidableEq

def emptyStore : Store :=
  { coffees := [], flavours := [], events := [],
    nextCoffeeId := 1, nextFlavourId := 1, nextEventId := 1 }

/-- Failures a service call can surface to its caller: an HttpException
carrying a message and a status code, an error raised inside the store layer
(TypeORM), or a plain JavaScript TypeError. -/
inductive Err
  | http (message : String) (status : Nat)
  | store (message : String)
  | js (message : String)
deriving Repr, DecidableEq

/-- HttpStatus.NOT_FOUND -/
def NOT_FOUND : Nat := 404

/-- The value of a decimal digit character, none for anything else (code
points 48 through 57 are the digits). -/
def digitVal (c : Char) : Option Nat :=
  if 48 ≤ c.toNat ∧ c.toNat ≤ 57 then some (c.toNat - 48) else Option.none

def parseDigits : List Char → Nat → Option Nat
  | [], acc => some acc
  | c :: rest, acc =>
    match digitVal c with
    | some d => parseDigits rest (acc * 10 + d)
    | Option.none => Option.none

/-- JavaScript unary plus applied to the id string (`+id` in the service).
`Option.none` stands for NaN, which compares equal to no key.  Ids are the
transport's path parameter, a decimal digit string; any other character
yields NaN (signs, decimal points and whitespace trimming of full JavaScript
coercion are not reachable from that shape and are not modelled). -/
def toKey (id : String) : Option Nat := parseDigits id.data 0

/-- A scalar appearing in a TypeORM where clause. -/
inductive FindValue
  | num (n : Nat)
  | str (s : String)
  | nan
deriving Repr, DecidableEq

def keyToFindValue (k : Option Nat) : FindValue :=
  match k with
  | Option.none => FindValue.nan
  | some n => FindValue.num n

/-- Modelled from the spec: the entity files are absent.  Section 3 lists the
Coffee properties id, title, brand, description, recommendations and the
flavours relation; there is no `name` property. -/
def coffeeColumns : List String :=
  ["id", "title", "brand", "description", "recommendations", "flavours"]

/-- Whether a Coffee row satisfies one `property = value` clause. -/
def coffeeFieldMatches (c : Coffee) : String → FindValue → Bool
  | "id", FindValue.num n => c.id == n
  | "title", FindValue.str s => c.title == s
  | "brand", FindValue.str s => c.brand == s
  | "description", FindValue.str s => c.description == s
  | "recommendations", FindValue.num n => c.recommendations == n
  | _, _ => false

/-- TypeORM `findOne` on the Coffee repository.  The where clause is a list of
`property = value` pairs; TypeORM validates every property against the
entity metadata and raises EntityPropertyNotFoundError for an unknown one,
otherwise it returns the first matching row or null.  The flavours relation
is eager-loaded; the association list is kept inline in the row. -/
def coffeeRepoFindOne (s : Store) (w : List (String × FindValue)) :
    Except Err (Option Coffee) :=
  match (w.map Prod.fst).find? (fun p => !(coffeeColumns.contains p)) with
  | some p => Except.error (Err.store ("Property " ++ p ++ " was not found in Coffee"))
  | Option.none =>
    Except.ok (s.coffees.find? (fun c => w.all (fun pv => coffeeFieldMatches c pv.1 pv.2)))

/-- A JavaScript promise, as a value: `resolved` is what `await` yields.  The
promise object itself is truthy regardless of the resolved value. -/
structure JSPromise (α : Type) where
  resolved : α
deriving Repr, DecidableEq

def JSPromise.isTruthy {α : Type} (_ : JSPromise α) : Bool := true

/-- Embeds `findOne` (coffees.service.ts lines 44-55).  The method is not
`async` and does not `await` the repository call, so `coffee` is bound to the
promise object; its truthiness check can never take the throw branch.  The
value the method hands back is the promise, whose resolved value (the row or
null) is what awaiting callers observe. -/
def findOne (s : Store) (id : String) : Except Err (JSPromise (Option Coffee)) :=
  match coffeeRepoFindOne s [("id", keyToFindValue (toKey id))] with
  | Except.error e => Except.error e
  | Except.ok r =>
    let coffee : JSPromise (Option Coffee) := { resolved := r }
    if coffee.isTruthy = false then
      Except.error (Err.http ("Coffee " ++ id ++ " not found") NOT_FOUND)
    else
      Except.ok coffee

/-- Modelled from the spec: pagination-query.dto.ts is absent from the source
tree.  Section 4.1 describes an optional offset (skip count) and an optional
limit (maximum row count). -/
structure PaginationQueryDto where
  limit : Option Nat
  offset : Option Nat
deriving Repr, DecidableEq

/-- The options object `findAll` passes to `coffeeRepository.find`. -/
structure FindManyOptions where
  relationsFlavours : Bool
  skip : Option Nat
  take : Option Nat
deriving Repr, DecidableEq

/-- TypeORM `find` on the Coffee repository: skip the first `skip` rows, then
return at most `take` rows, with the flavours relation eager-loaded. -/
def coffeeRepoFind (s : Store) (o : FindManyOptions) : List Coffee :=
  let afterSkip :=
    match o.skip with
    | Option.none => s.coffees
    | some k => s.coffees.drop k
  match o.take with
  | Option.none => afterSkip
  | some t => afterSkip.take t

/-- Embeds `findAll` (lines 34-42): one repository query whose options carry
the pagination values and request the flavours relation.  The issued options
record is returned alongside the result so that the query shape is itself an
observable of the model. -/
def findAll (s : Store) (q : PaginationQueryDto) : FindManyOptions × List Coffee :=
  let opts : FindManyOptions :=
    { relationsFlavours := true, skip := q.offset, take := q.limit }
  (opts, coffeeRepoFind s opts)

/-- Embeds `preloadFlavourByName` (lines 119-125).  `this.flavourRepository`
is the constructor parameter declared with `@InjectRepository(Coffee)` (line
26), so the lookup runs against the Coffee entity via `coffeeRepoFindOne`;
`name` is not a Coffee column, so the query raises (see
`preloadFlavourByName_always_errors`).  The found branch mirrors the
TypeScript (return the row that was found); the not-found branch constructs
an unsaved flavour instance, id 0 until a cascading save assigns one. -/
def preloadFlavourByName (s : Store) (nm : String) : Except Err Flavour :=
  match coffeeRepoFindOne s [("name", FindValue.str nm)] with
  | Except.error e => Except.error e
  | Except.ok (some c) => Except.ok { id := c.id, name := nm }
  | Except.ok Option.none => Except.ok { id := 0, name := nm }

/-- `Promise.all` over the flavour names: the lookups are read-only, and the
first rejection rejects the whole batch. -/
def resolveFlavours (s : Store) (names : List String) : Except Err (List Flavour) :=
  names.mapM (preloadFlavourByName s)

/-- Cascading part of a coffee save: flavour instances with id 0 are new and
are inserted into the flavour table with a fresh id, in list order; already
persisted instances are only associated.  (Modelled from the spec: the entity
files with the cascade configuration are absent; section 4.1 says new Flavour
rows are inserted as part of the same save.) -/
def cascadeFlavours (s : Store) (fs : List Flavour) : List Flavour × Store :=
  match fs with
  | [] => ([], s)
  | f :: rest =>
    if f.id = 0 then
      let f2 : Flavour := { f with id := s.nextFlavourId }
      let s2 := { s with flavours := s.flavours ++ [f2],
                         nextFlavourId := s.nextFlavourId + 1 }
      let (gs, s3) := cascadeFlavours s2 rest
      (f2 :: gs, s3)
    else
      let (gs, s3) := cascadeFlavours s rest
      (f :: gs, s3)

/-- Insert-or-update of a coffee row keyed by id. -/
def saveCoffeeRow (rows : List Coffee) (c : Coffee) : List Coffee :=
  if rows.any (fun r => r.id == c.id) then
    rows.map (fun r => if r.id == c.id then c else r)
  else
    rows ++ [c]

/-- TypeORM `save` of a coffee: cascade the flavour associations, then insert
the row (unsaved, id 0: a fresh id is drawn) or update it in place. -/
def coffeeRepoSave (s : Store) (c : Coffee) : Coffee × Store :=
  let (fs, s1) := cascadeFlavours s c.flavours
  if c.id = 0 then
    let c2 : Coffee := { c with id := s1.nextCoffeeId, flavours := fs }
    (c2, { s1 with coffees := s1.coffees ++ [c2],
                   nextCoffeeId := s1.nextCoffeeId + 1 })
  else
    let c2 : Coffee := { c with flavours := fs }
    (c2, { s1 with coffees := saveCoffeeRow s1.coffees c2 })

/-- create-coffee.dto.ts: title, brand and the flavour name list. -/
structure CreateCoffeeDto where
  title : String
  brand : String
  flavours : List String
deriving Repr, DecidableEq

/-- Embeds `create` (lines 57-67): resolve every flavour name through
`preloadFlavourByName`, construct the unsaved entity (description and
recommendations take their entity defaults, modelled from spec section 3),
and save it with the cascading flavour inserts. -/
def create (s : Store) (dto : CreateCoffeeDto) : Except Err (Coffee × Store) :=
  match resolveFlavours s dto.flavours with
  | Except.error e => Except.error e
  | Except.ok fs =>
    let unsaved : Coffee :=
      { id := 0, title := dto.title, brand := dto.brand,
        description := "", recommendations := 0, flavours := fs }
    Except.ok (coffeeRepoSave s unsaved)

/-- Modelled from the spec: update-coffee.dto.ts is absent from the source
tree.  Section 4.1 describes a partial input: each of title, brand and
flavours may be present or absent. -/
structure UpdateCoffeeDto where
  title : Option String
  brand : Option String
  flavours : Option (List String)
deriving Repr, DecidableEq

/-- TypeORM `preload`: load the row by primary key and merge the provided
fields onto it; yields nothing when the key is NaN or matches no row.  A
field whose value is undefined (absent title or brand, flavours when the
resolution was skipped) leaves the loaded column untouched. -/
def coffeeRepoPreload (s : Store) (key : Option Nat) (dto : UpdateCoffeeDto)
    (fs : Option (List Flavour)) : Option Coffee :=
  match key with
  | Option.none => Option.none
  | some k =>
    match s.coffees.find? (fun c => c.id == k) with
    | Option.none => Option.none
    | some c =>
      some { c with
        title := dto.title.getD c.title,
        brand := dto.brand.getD c.brand,
        flavours := fs.getD c.flavours }

/-- Embeds `update` (lines 69-87).  The flavour resolution runs first:
`updateCoffeeDto.flavours && Promise.all(...)` resolves the names whenever
the field is present (an empty array is truthy in JavaScript, so an empty
list is resolved - to the empty list) and is skipped when it is absent.  A
rejection there propagates before the preload happens.  Then the entity is
preloaded by `+id` with the provided fields merged on, the not-found check
runs on the merge result, and the merged entity is saved. -/
def update (s : Store) (id : String) (dto : UpdateCoffeeDto) :
    Except Err (Coffee × Store) :=
  match (match dto.flavours with
         | Option.none => Except.ok Option.none
         | some names => Except.map some (resolveFlavours s names)) with
  | Except.error e => Except.error e
  | Except.ok fs =>
    match coffeeRepoPreload s (toKey id) dto fs with
    | Option.none => Except.error (Err.http ("Coffee " ++ id ++ " not found") NOT_FOUND)
    | some c => Except.ok (coffeeRepoSave s c)

/-- Embeds `remove` (lines 114-117): `await this.findOne(id)` awaits the
promise `findOne` handed back, so a missing id yields null rather than a
Not-Found throw, and `coffeeRepository.remove(null)` then raises a TypeError
inside the store layer.  On a present id the coffee row is deleted and
returned; the flavour table is untouched (spec section 3: Flavour rows are
shared and never deleted by this path). -/
def remove (s : Store) (id : String) : Except Err (Coffee × Store) :=
  match findOne s id with
  | Except.error e => Except.error e
  | Except.ok p =>
    match p.resolved with
    | Option.none => Except.error (Err.js ("Cannot read properties of null"))
    | some c =>
      Except.ok (c, { s with coffees := s.coffees.filter (fun r => r.id != c.id) })

/-- TypeORM `save` of an event: append the row with a fresh id. -/
def eventRepoSave (s : Store) (e : Event) : Store :=
  { s with events := s.events ++ [{ e with id := s.nextEventId }],
           nextEventId := s.nextEventId + 1 }

/-- A query-runner transaction: `base` is the committed store visible outside
the transaction, `staged` the view the in-flight transaction sees.  Saves go
to the staged view; commit publishes it; rollback discards it. -/
structure QueryRunner where
  base : Store
  staged : Store
deriving Repr, DecidableEq

def QueryRunner.start (s : Store) : QueryRunner := { base := s, staged := s }

def QueryRunner.saveCoffee (q : QueryRunner) (c : Coffee) : QueryRunner :=
  { q with staged := (coffeeRepoSave q.staged c).2 }

def QueryRunner.saveEvent (q : QueryRunner) (e : Event) : QueryRunner :=
  { q with staged := eventRepoSave q.staged e }

def QueryRunner.commit (q : QueryRunner) : Store := q.staged

def QueryRunner.rollback (q : QueryRunner) : Store := q.base

/-- Fault injection for `recommendCoffee`: which awaited store operation
inside the try block rejects (the spec speaks of an injected failure
mid-operation). -/
inductive FailAt
  | noFail
  | atSaveCoffee
  | atSaveEvent
  | atCommit
deriving Repr, DecidableEq

/-- What a `recommendCoffee` call leaves behind: the committed store, the
caller's in-memory coffee object, and the error the caller observes (the
catch block swallows every transaction failure, so this is always none). -/
structure RecommendOutcome where
  store : Store
  coffee : Coffee
  raised : Option Err
deriving Repr, DecidableEq

/-- Embeds `recommendCoffee` (lines 89-112).  A transaction is started; inside
the try block the caller's coffee object is mutated
(`coffee.recommendations++`) before any save, the updated coffee and the new
event row are saved through the query runner, and the transaction is
committed.  If the injected fault makes one of the awaited saves or the
commit reject, control moves to the catch block, which rolls the staged
writes back and does not re-throw. -/
def recommendCoffee (s : Store) (coffee : Coffee) (fail : FailAt) : RecommendOutcome :=
  let q0 := QueryRunner.start s
  let coffee1 : Coffee := { coffee with recommendations := coffee.recommendations + 1 }
  let ev : Event :=
    { id := 0, name := "recommend_coffee", type := "coffee",
      payloadCoffeeId := coffee1.id }
  if fail = FailAt.atSaveCoffee then
    { store := QueryRunner.rollback q0, coffee := coffee1, raised := Option.none }
  else
    let q1 := q0.saveCoffee coffee1
    if fail = FailAt.atSaveEvent then
      { store := QueryRunner.rollback q1, coffee := coffee1, raised := Option.none }
    else
      let q2 := q1.saveEvent ev
      if fail = FailAt.atCommit then
        { store := QueryRunner.rollback q2, coffee := coffee1, raised := Option.none }
      else
        { store := QueryRunner.commit q2, coffee := coffee1, raised := Option.none }

/-! Concrete fixtures shared by the theorems below. -/

def vanillaFlavour : Flavour := { id := 1, name := "Vanilla" }

def sampleCoffee : Coffee :=
  { id := 1, title := "Sample brew", brand := "Carson Inc.",
    description := "", recommendations := 0, flavours := [vanillaFlavour] }

def sampleStore : Store :=
  { coffees := [sampleCoffee], flavours := [vanillaFlavour], events := [],
    nextCoffeeId := 2, nextFlavourId := 2, nextEventId := 1 }

/-- The error the injected-as-Coffee repository raises on a where clause over
`name`. -/
def namePropErr : Err := Err.store ("Property name was not found in Coffee")

/-! Supporting lemmas. -/

/-- The service never reaches the Not-Found throw in `findOne`: the truthiness
check runs on the promise object, so the call always succeeds with the
resolved row-or-null. -/
lemma findOne_never_raises (s : Store) (id : String) :
    ∃ p, findOne s id = Except.ok p :=
  ⟨_, rfl⟩

/-- Every flavour-name lookup raises: the injected repository is the Coffee
repository and `name` is not a Coffee column. -/
lemma preloadFlavourByName_always_errors (s : Store) (nm : String) :
    preloadFlavourByName s nm = Except.error namePropErr :=
  rfl

/-- Cascading a flavour list whose members are all persisted (id different
from 0) associates them unchanged and leaves the store untouched. -/
lemma cascadeFlavours_of_saved (s : Store) :
    ∀ fs : List Flavour, (∀ f ∈ fs, f.id ≠ 0) → cascadeFlavours s fs = (fs, s) := by
  intro fs
  induction fs with
  | nil => intro h; rfl
  | cons f rest ih =>
    intro h
    have hf : f.id ≠ 0 := h f (List.mem_cons_self f rest)
    have hr := ih (fun g hg => h g (List.mem_cons_of_mem f hg))
    simp [cascadeFlavours, hf, hr]

/-! Claim theorems. -/

/-- C1: the claim says that for every id matching no Coffee row, findOne fails
with a Not-Found error carrying the message Coffee-id-not-found and never
returns null as a success value.  The code does the opposite: findOne is not
async and never awaits the repository promise, so the not-found check tests
the (always truthy) promise object and the call resolves to null as a
success.  Evaluated at the failing input: an empty store and id 1. -/
theorem findOne_missing_id_resolves_to_null_success :
    findOne emptyStore "1" = Except.ok { resolved := Option.none } :=
  rfl

/-- C2: recommendCoffee is atomic with respect to the persisted store - the
counter update and the event row are committed together on the no-failure
path, and a fault injected at any awaited store operation inside the
transaction leaves the committed store exactly unchanged - and the caught
failure is never re-raised, so the caller observes no error signal. -/
theorem recommendCoffee_commits_both_or_neither (s : Store) (c : Coffee) (f : FailAt) :
    (recommendCoffee s c f).raised = Option.none ∧
    (recommendCoffee s c f).store
      = (if f = FailAt.noFail
         then eventRepoSave
                (coffeeRepoSave s { c with recommendations := c.recommendations + 1 }).2
                { id := 0, name := "recommend_coffee", type := "coffee",
                  payloadCoffeeId := c.id }
         else s) := by
  cases f <;> exact ⟨rfl, rfl⟩

/-- C3: the claim says create reuses an existing Flavour row whose name
matches an input flavour name.  On the code the flavour lookup runs against
the Coffee repository (wrong injection token), so with a store already
holding the Flavour row Vanilla, a create listing Vanilla rejects with the
EntityPropertyNotFoundError of the store layer instead of reusing the row. -/
theorem create_with_existing_flavour_name_errors :
    create sampleStore { title := "Other brew", brand := "Carson Inc.", flavours := ["Vanilla"] }
      = Except.error namePropErr :=
  rfl

/-- C4: the claim says a create whose flavour names are all new persists a
Coffee with exactly those new Flavour rows, recommendations 0 and empty
description.  On the code any create with a non-empty flavour list rejects
during the name lookup (wrong injection token): evaluated on the empty store
with one new flavour name, the input of the repository e2e test. -/
theorem create_with_new_flavour_names_errors :
    create emptyStore { title := "Sample brew", brand := "Carson Inc.", flavours := ["Vanilla"] }
      = Except.error namePropErr :=
  rfl

/-- C5: the claim says an update whose input carries a flavours list replaces
the association set with the find-or-create resolution of the names.  On the
code an update with a non-empty flavours list rejects during the name lookup
(wrong injection token) before any replacement: evaluated at an existing
coffee (id 1) and the existing flavour name Vanilla. -/
theorem update_with_nonempty_flavours_errors :
    update sampleStore "1"
        { title := Option.none, brand := Option.none, flavours := some ["Vanilla"] }
      = Except.error namePropErr :=
  rfl

/-- C6: the claim says update on a missing id always fails with the Not-Found
error after the merge-by-id step.  On the code the flavour resolution runs
before the preload, so with a non-empty flavours list the call rejects with
the store error of the name lookup instead of Not-Found: evaluated on the
empty store at id 1. -/
theorem update_missing_id_with_flavours_errors_before_merge :
    update emptyStore "1"
        { title := Option.none, brand := Option.none, flavours := some ["Vanilla"] }
      = Except.error namePropErr :=
  rfl

/-- C7: the claim says remove on a missing id propagates the Not-Found failure
of findOne.  On the code findOne never fails (see C1): remove awaits the
promise, receives null, and passes null to the remove of the repository,
which raises a TypeError - not the Not-Found error.  Evaluated on the empty
store at id 1. -/
theorem remove_missing_id_raises_type_error :
    remove emptyStore "1" = Except.error (Err.js ("Cannot read properties of null")) :=
  rfl

/-- C8: after a successful recommendCoffee call on a coffee that is a
persisted row of the store, the recommendations counter of the coffee is
exactly one greater than before, exactly one new Event row exists - named
recommend_coffee, typed coffee, its payload referencing the coffee id - and
nothing else changes: every other coffee row is untouched (the recommended
row changes only in its counter) and the flavour table is untouched. -/
theorem recommendCoffee_success_increments_and_logs_one_event
    (s : Store) (c : Coffee)
    (hid : c.id ≠ 0)
    (hrow : s.coffees.find? (fun r => r.id == c.id) = some c)
    (hfl : ∀ f ∈ c.flavours, f.id ≠ 0) :
    (recommendCoffee s c FailAt.noFail).coffee.recommendations = c.recommendations + 1 ∧
    (recommendCoffee s c FailAt.noFail).store.events
      = s.events ++ [{ id := s.nextEventId, name := "recommend_coffee",
                       type := "coffee", payloadCoffeeId := c.id }] ∧
    (recommendCoffee s c FailAt.noFail).store.coffees
      = s.coffees.map (fun r =>
          if r.id == c.id then { c with recommendations := c.recommendations + 1 } else r) ∧
    (recommendCoffee s c FailAt.noFail).store.flavours = s.flavours := by
  have hcas := cascadeFlavours_of_saved s c.flavours hfl
  have hmem : c ∈ s.coffees := List.mem_of_find?_eq_some hrow
  have hany : (s.coffees.any (fun r => r.id == c.id)) = true := by
    simp only [List.any_eq_true]
    exact ⟨c, hmem, by simp⟩
  refine ⟨rfl, ?_, ?_, ?_⟩ <;>
    simp [recommendCoffee, QueryRunner.start, QueryRunner.saveCoffee, QueryRunner.saveEvent,
      QueryRunner.commit, eventRepoSave, coffeeRepoSave, saveCoffeeRow, hcas, hid, hany]

/-- Witness for C8 at a concrete store: one persisted coffee (id 1) with one
persisted flavour. -/
theorem recommendCoffee_success_increments_and_logs_one_event_witness :
    (sampleCoffee.id ≠ 0 ∧
     sampleStore.coffees.find? (fun r => r.id == sampleCoffee.id) = some sampleCoffee ∧
     (∀ f ∈ sampleCoffee.flavours, f.id ≠ 0)) ∧
    ((recommendCoffee sampleStore sampleCoffee FailAt.noFail).coffee.recommendations
        = sampleCoffee.recommendations + 1 ∧
     (recommendCoffee sampleStore sampleCoffee FailAt.noFail).store.events
        = sampleStore.events ++ [{ id := sampleStore.nextEventId, name := "recommend_coffee",
                                   type := "coffee", payloadCoffeeId := sampleCoffee.id }] ∧
     (recommendCoffee sampleStore sampleCoffee FailAt.noFail).store.coffees
        = sampleStore.coffees.map (fun r =>
            if r.id == sampleCoffee.id
            then { sampleCoffee with recommendations := sampleCoffee.recommendations + 1 }
            else r) ∧
     (recommendCoffee sampleStore sampleCoffee FailAt.noFail).store.flavours
        = sampleStore.flavours) :=
  ⟨⟨by decide, by rfl, by decide⟩,
   recommendCoffee_success_increments_and_logs_one_event sampleStore sampleCoffee
     (by decide) (by rfl) (by decide)⟩

/-- C9: findAll issues exactly one store query - the options record it passes
to the repository - which skips the given offset, takes at most the given
limit and eager-loads the flavours relation; the result is the corresponding
page and never exceeds the limit, and the operation has no error outcome (an
empty page is an ordinary value). -/
theorem findAll_issues_single_paginated_query (s : Store) (lim off : Nat) :
    (findAll s { limit := some lim, offset := some off }).1
      = { relationsFlavours := true, skip := some off, take := some lim } ∧
    (findAll s { limit := some lim, offset := some off }).2
      = (s.coffees.drop off).take lim ∧
    ((findAll s { limit := some lim, offset := some off }).2).length ≤ lim := by
  refine ⟨rfl, rfl, ?_⟩
  simp only [findAll, coffeeRepoFind, List.length_take]
  exact Nat.min_le_left _ _

/-- C10: recommendCoffee increments the recommendations field of the
caller-supplied coffee object before the transactional saves, so when the
unit fails and rolls back, the caller still holds an object whose counter is
one greater while the persisted store is unchanged. -/
theorem recommendCoffee_failure_leaves_argument_incremented
    (s : Store) (c : Coffee) (f : FailAt) (h : f ≠ FailAt.noFail) :
    (recommendCoffee s c f).coffee.recommendations = c.recommendations + 1 ∧
    (recommendCoffee s c f).store = s := by
  cases f with
  | noFail => exact absurd rfl h
  | atSaveCoffee => exact ⟨rfl, rfl⟩
  | atSaveEvent => exact ⟨rfl, rfl⟩
  | atCommit => exact ⟨rfl, rfl⟩

/-- Witness for C10: a failure injected at the event save. -/
theorem recommendCoffee_failure_leaves_argument_incremented_witness :
    FailAt.atSaveEvent ≠ FailAt.noFail ∧
    ((recommendCoffee sampleStore sampleCoffee FailAt.atSaveEvent).coffee.recommendations
        = sampleCoffee.recommendations + 1 ∧
     (recommendCoffee sampleStore sampleCoffee FailAt.atSaveEvent).store = sampleStore) :=
  ⟨by decide,
   recommendCoffee_failure_leaves_argument_incremented sampleStore sampleCoffee
     FailAt.atSaveEvent (by decide)⟩

end CoffeeCatalog
